import Mathlib

/-!
Shallow embedding of the pip execution module (salt/modules/pip.py): binary
resolution, requirements caching, argument assembly for install and uninstall,
command execution through an abstract process collaborator, and freeze-output
parsing.  External collaborators (cmd.run_all, cp.is_cached, cp.cache_file,
cp.hash_file, cmd.which_bin, platform checks) are modelled as fields of an
explicit environment record.  Python strings are modelled as Lean Strings with
executable character-level models of the str operations the source uses.
-/

namespace PipMod

/-! ### Models of the Python string operations used by the source -/

/-- Characters treated as whitespace by the Python str.strip default. -/
def pySpaceChar (c : Char) : Bool :=
  c == ' ' || c == '\t' || c == '\n' || c == '\r' || c == '\x0b' || c == '\x0c'

/-- Character-level model of str.strip with no argument. -/
def pyStripChars (l : List Char) : List Char :=
  ((l.dropWhile pySpaceChar).reverse.dropWhile pySpaceChar).reverse

/-- Model of the Python expression s.strip(). -/
def pyStrip (s : String) : String := ⟨pyStripChars s.data⟩

/-- Model of s.replace(a, b) for one-character patterns, the only form the
source uses (semicolon to comma in install, comma to space in uninstall). -/
def pyReplaceChar (s : String) (a b : Char) : String :=
  ⟨s.data.map (fun c => if c == a then b else c)⟩

/-- Model of s.startswith(p). -/
def pyStartsWith (s p : String) : Bool := p.data.isPrefixOf s.data

/-- Model of the Python expression c in s for a single character c. -/
def pyContains (s : String) (c : Char) : Bool := s.data.contains c

/-- Model of s.lower(); the names compared in list are ASCII. -/
def pyLowerStr (s : String) : String := ⟨s.data.map Char.toLower⟩

/-- Fuel-driven character-level model of str.split with a non-empty separator:
at each position, a separator occurrence closes the current group, anything
else extends it.  The fuel is only there to make the recursion structural;
fuel equal to the length of the input is always enough. -/
def pySplitFuel (sep : List Char) : Nat → List Char → List (List Char)
  | _, [] => [[]]
  | 0, l => [l]
  | fuel + 1, c :: rest =>
    if sep.isPrefixOf (c :: rest) then
      [] :: pySplitFuel sep fuel (List.drop (sep.length - 1) rest)
    else
      match pySplitFuel sep fuel rest with
      | [] => [[c]]
      | g :: gs => (c :: g) :: gs

/-- Model of s.split(sep) for a non-empty separator (Python raises ValueError
on an empty separator; the source never passes one). -/
def pySplit (s sep : String) : List String :=
  (pySplitFuel sep.data s.data.length s.data).map (fun cs => String.mk cs)

/-- Model of sep.join(parts). -/
def pyJoin (sep : String) : List String → String
  | [] => ""
  | [x] => x
  | x :: y :: rest => x ++ sep ++ pyJoin sep (y :: rest)

/-- Model of s.splitlines() for newline-separated text: split on the newline
character and drop the final empty group a trailing newline would produce. -/
def pySplitlines (s : String) : List String :=
  let parts := pySplit s "\n"
  match parts.getLast? with
  | some last => if last == "" then parts.dropLast else parts
  | none => parts

/-- The apostrophe character, used to model the Python repr of a string. -/
def pyQuote : String := (Char.ofNat 39).toString

/-- Model of the format conversion r applied to a string value, adequate for
values that contain no quote characters (all inputs the claims exercise). -/
def pyRepr (s : String) : String := pyQuote ++ s ++ pyQuote

/-- Model of int(s) succeeding in base 10: optional sign, then digits, with
surrounding whitespace ignored. -/
def pyIntParses (s : String) : Bool :=
  let t := pyStripChars s.data
  let t2 := match t with
    | c :: cs => if c == '-' || c == '+' then cs else c :: cs
    | [] => []
  !t2.isEmpty && t2.all Char.isDigit

/-- Python truthiness of an optional string argument: present and non-empty. -/
def truthyStr : Option String → Bool
  | none => false
  | some s => !(s == "")

/-- Several install arguments accept either a single string or a list of
strings, mirroring the isinstance checks on basestring in the source. -/
inductive StrOrList where
  | str (s : String)
  | list (l : List String)
deriving DecidableEq

/-- Python truthiness of a string-or-list value. -/
def StrOrList.truthy : StrOrList → Bool
  | .str s => !(s == "")
  | .list l => !l.isEmpty

/-- Python truthiness of an optional string-or-list argument. -/
def solTruthy : Option StrOrList → Bool
  | none => false
  | some v => v.truthy

/-- Shared comma normalisation used for pkgs, editable and mirrors: a string
containing a comma is split on commas and each piece stripped, a plain string
becomes a one-element list, and a list is used as given. -/
def normalizeCommaList : StrOrList → List String
  | .str s => if pyContains s ',' then (pySplit s ",").map pyStrip else [s]
  | .list l => l

/-- Model of os.path.join of three components with the platform separator. -/
def osPathJoin2 (win : Bool) (a b c : String) : String :=
  let sep := if win then "\\" else "/"
  a ++ sep ++ b ++ sep ++ c

/-! ### Errors, process results and the collaborator environment -/

/-- The exceptions the module can raise, tagged by Python exception class. -/
inductive PipErr where
  /-- CommandNotFoundError from salt.exceptions. -/
  | commandNotFound (msg : String)
  /-- A bare Exception raised by argument validation. -/
  | exception (msg : String)
  /-- ValueError raised for a non-integer timeout. -/
  | valueError (msg : String)
  /-- IndexError raised by str.format when the positional placeholder has no
  positional argument (the build flag) or by a list index out of range. -/
  | indexError
  /-- NameError raised when an unbound local is read in the list loop. -/
  | nameError
  /-- ValueError raised by tuple unpacking of a wrong-sized list. -/
  | unpackValueError
  /-- CommandExecutionError raised by freeze and list, carrying stderr. -/
  | executionError (stderr : String)
deriving DecidableEq

/-- Result record returned by the cmd.run_all collaborator. -/
structure RunResult where
  retcode : Int
  stdout : String
  stderr : String
deriving DecidableEq

/-- The ambient collaborators the module calls through __salt__, salt.utils
and os.path, gathered into one record so calls can be traced in theorems.
Falsy returns of the cp functions are modelled as the empty string.  The
run_all field may fail, modelling an exception escaping the spawned call. -/
structure PipEnv where
  which_bin : List String → Option String
  is_windows : Bool
  isdir : String → Bool
  isfile : String → Bool
  valid_url : String → List String → Bool
  is_cached : String → String
  cache_file : String → String
  hash_file : String → String
  mkstemp : String
  run_all : String → Option String → Option String → Except PipErr RunResult

deriving instance DecidableEq for Except

/-- The protocol allow-list VALID_PROTOS from the source. -/
def VALID_PROTOS : List String := ["http", "https", "ftp"]

/-! ### Binary resolution -/

/-- Embedding of _get_pip_bin.  The second component records whether a PATH
search through cmd.which_bin was performed. -/
def getPipBin (ctx : PipEnv) (bin_env : Option String) :
    Except PipErr String × Bool :=
  if !truthyStr bin_env then
    match ctx.which_bin ["pip2", "pip", "pip-python"] with
    | none => (.error (.commandNotFound "Could not find a `pip` binary"), true)
    | some w => (.ok w, true)
  else
    let b := bin_env.getD ""
    if ctx.isdir b then
      let pip_bin :=
        if ctx.is_windows then osPathJoin2 true b "Scripts" "pip.exe"
        else osPathJoin2 false b "bin" "pip"
      if ctx.isfile pip_bin then (.ok pip_bin, false)
      else (.error (.commandNotFound "Could not find a `pip` binary"), false)
    else (.ok b, false)

/-- Embedding of _get_env_activate. -/
def getEnvActivate (ctx : PipEnv) (bin_env : Option String) :
    Except PipErr String :=
  if !truthyStr bin_env then
    .error (.commandNotFound "Could not find a `activate` binary")
  else
    let b := bin_env.getD ""
    if ctx.isdir b then
      let activate_bin :=
        if ctx.is_windows then osPathJoin2 true b "Scripts" "activate.bat"
        else osPathJoin2 false b "bin" "activate"
      if ctx.isfile activate_bin then .ok activate_bin
      else .error (.commandNotFound "Could not find a `activate` binary")
    else .error (.commandNotFound "Could not find a `activate` binary")

/-! ### Requirements caching -/

/-- Embedding of _get_cached_requirements.  The second component counts the
calls made to the cp.cache_file collaborator, so that theorems can speak
about how many fetches an invocation performs; the first component is exactly
what the source returns. -/
def getCachedRequirements (ctx : PipEnv) (req : String) : String × Nat :=
  let c0 := ctx.is_cached req
  let cached := if c0 = "" then ctx.cache_file req else c0
  let fetches := if c0 = "" then 1 else 0
  if ctx.hash_file req ≠ ctx.hash_file cached then
    (ctx.cache_file req, fetches + 1)
  else (cached, fetches)

/-! ### The editable-spec egg pattern -/

/-- Helper for the egg regex: inside the lazy alternative, find the first
occurrence of the ampersand form of the egg marker and capture up to the next
ampersand. -/
def findAmpEgg : List Char → Option (List Char)
  | [] => none
  | '&' :: rest =>
    if rest.take 4 = ['e', 'g', 'g', '='] then
      some ((rest.drop 4).takeWhile (fun c => c ≠ '&'))
    else findAmpEgg rest
  | _ :: rest => findAmpEgg rest

/-- Model of re.search with the source pattern matching an egg fragment: the
match starts at the first hash sign that is either immediately followed by the
egg marker, or has an ampersand-prefixed egg marker somewhere after it; group
one is the text after that marker up to the next ampersand. -/
def eggSearchAux : List Char → Option (List Char)
  | [] => none
  | '#' :: rest =>
    if rest.take 4 = ['e', 'g', 'g', '='] then
      some ((rest.drop 4).takeWhile (fun c => c ≠ '&'))
    else
      match findAmpEgg rest with
      | some cap => some cap
      | none => eggSearchAux rest
  | _ :: rest => eggSearchAux rest

/-- Group one of the egg pattern searched in an editable entry. -/
def eggGroup1 (s : String) : Option String :=
  (eggSearchAux s.data).map (fun cs => String.mk cs)

/-- The loop over editable entries in install: each entry must be local or
carry a non-empty egg name, and contributes one editable token. -/
def editableTokens : List String → Except PipErr (List String)
  | [] => .ok []
  | entry :: rest =>
    if !(pyStartsWith entry "file://" || pyStartsWith entry "/") then
      match eggGroup1 entry with
      | none => .error (.exception "You must specify an egg for this editable")
      | some cap =>
        if cap = "" then
          .error (.exception "You must specify an egg for this editable")
        else (editableTokens rest).map (fun ts => ("--editable=" ++ entry) :: ts)
    else (editableTokens rest).map (fun ts => ("--editable=" ++ entry) :: ts)

/-- The loop over mirrors in install: every mirror URL must start with the
plain http scheme, otherwise validation fails naming the value. -/
def mirrorTokens : List String → Except PipErr (List String)
  | [] => .ok []
  | m :: rest =>
    if !(pyStartsWith m "http://") then
      .error (.exception (pyRepr m ++ " must be a valid URL"))
    else (mirrorTokens rest).map (fun ts => ("--mirrors=" ++ m) :: ts)

/-! ### The install request and its assembly -/

/-- The keyword arguments of install with their source defaults. -/
structure InstallArgs where
  pkgs : Option StrOrList := none
  requirements : Option String := none
  env : Option String := none
  bin_env : Option String := none
  log : Option String := none
  proxy : Option String := none
  timeout : Option String := none
  editable : Option StrOrList := none
  find_links : Option String := none
  index_url : Option String := none
  extra_index_url : Option String := none
  noIndex : Bool := false
  mirrors : Option StrOrList := none
  build : Option String := none
  target : Option String := none
  download : Option String := none
  download_cache : Option String := none
  source : Option String := none
  upgrade : Bool := false
  force_reinstall : Bool := false
  ignore_installed : Bool := false
  exists_action : Option String := none
  no_deps : Bool := false
  no_install : Bool := false
  no_download : Bool := false
  install_options : Option StrOrList := none
  runas : Option String := none
  no_chown : Bool := false
  cwd : Option String := none
  activate : Bool := false

/-- The option validations and token appends that follow the requirements
block in install, in source order: log, proxy, timeout, find_links, the
no_index exclusivity check, index_url, extra_index_url, no_index, mirrors,
build, target, download, download_cache, source, the boolean flags,
exists_action and install_options. -/
def postReqTokens (ctx : PipEnv) (a : InstallArgs) :
    Except PipErr (List String) := do
  -- The source wraps os.path.exists(log) in a try that catches IOError, but
  -- os.path.exists returns a Bool and never raises IOError, so the log branch
  -- only appends its token.
  let logT := if truthyStr a.log then ["--log=" ++ a.log.getD ""] else []
  let proxyT := if truthyStr a.proxy then ["--proxy=" ++ a.proxy.getD ""] else []
  let timeoutT ←
    if truthyStr a.timeout then
      let t := a.timeout.getD ""
      if pyIntParses t then pure ["--timeout=" ++ t]
      else .error (.valueError (pyRepr t ++ " is not a valid integer base 10."))
    else pure []
  let flT ←
    if truthyStr a.find_links then
      let f := a.find_links.getD ""
      if !(ctx.valid_url f VALID_PROTOS) then
        .error (.exception (pyRepr f ++ " must be a valid URL"))
      else pure ["--find-links=" ++ f]
    else pure []
  if a.noIndex && (truthyStr a.index_url || truthyStr a.extra_index_url) then
    .error (.exception (pyRepr "no_index" ++ " and (" ++ pyRepr "index_url" ++
      " or " ++ pyRepr "extra_index_url" ++ ") are mutually exclusive."))
  else
    let iuT ←
      if truthyStr a.index_url then
        let u := a.index_url.getD ""
        if !(ctx.valid_url u VALID_PROTOS) then
          .error (.exception (pyRepr u ++ " must be a valid URL"))
        else pure ["--index-url=" ++ pyRepr u]
      else pure []
    let eiuT ←
      if truthyStr a.extra_index_url then
        let u := a.extra_index_url.getD ""
        if !(ctx.valid_url u VALID_PROTOS) then
          .error (.exception (pyRepr u ++ " must be a valid URL"))
        else pure ["--extra-index-url=" ++ pyRepr u ++ " "]
      else pure []
    let niT := if a.noIndex then ["--no-index"] else []
    let mirT ←
      if solTruthy a.mirrors then
        (mirrorTokens (normalizeCommaList (a.mirrors.getD (.list [])))).map
          (fun ts => "--use-mirrors" :: ts)
      else pure []
    -- The build branch of the source formats the token with a keyword-only
    -- format argument while the format string uses the positional
    -- placeholder, so str.format raises IndexError for any truthy build.
    let _bT ←
      if truthyStr a.build then (.error .indexError : Except PipErr (List String))
      else pure []
    let tgtT := if truthyStr a.target then ["--target=" ++ a.target.getD ""] else []
    let dlT := if truthyStr a.download then ["--download=" ++ a.download.getD ""] else []
    let dcT :=
      if truthyStr a.download_cache then
        ["--download-cache=" ++ a.download_cache.getD ""]
      else []
    let srcT := if truthyStr a.source then ["--source=" ++ a.source.getD ""] else []
    let upT := if a.upgrade then ["--upgrade"] else []
    let frT := if a.force_reinstall then ["--force-reinstall"] else []
    let iiT := if a.ignore_installed then ["--ignore-installed"] else []
    let eaT :=
      if truthyStr a.exists_action then
        ["--exists-action=" ++ a.exists_action.getD ""]
      else []
    let ndT := if a.no_deps then ["--no-deps"] else []
    let nisT := if a.no_install then ["--no-install"] else []
    let ndlT := if a.no_download then ["--no-download"] else []
    let ioT :=
      match a.install_options with
      | none => []
      | some (.str s) => if s == "" then [] else ["--install-option=" ++ s]
      | some (.list l) =>
        if l.isEmpty then [] else l.map (fun o => "--install-option=" ++ o)
    pure (logT ++ proxyT ++ timeoutT ++ flT ++ iuT ++ eiuT ++ niT ++ mirT ++
      tgtT ++ dlT ++ dcT ++ srcT ++ upT ++ frT ++ iiT ++ eaT ++ ndT ++ nisT ++
      ndlT ++ ioT)

/-- Outcome of assembling the install command, distinguishing the states the
cleanup guarantee depends on: a failure before any temporary copy exists, the
structured not-found return, a failure after the temporary copy was made, and
a fully assembled command ready to spawn. -/
inductive BuildOutcome where
  | vErrNoTemp (e : PipErr)
  | notFound (comment : String)
  | vErrTemp (e : PipErr) (t : String)
  | go (cmd : List String) (treq : Option String)
deriving DecidableEq

/-- Embedding of the body of install up to but excluding the spawn: binary
resolution, optional activation prefix, pkgs and editable normalisation, the
requirements block with its temporary re-owned copy, and the remaining option
validations. -/
def installBuild (ctx : PipEnv) (a : InstallArgs) : BuildOutcome :=
  let bin_env := if truthyStr a.env && !truthyStr a.bin_env then a.env else a.bin_env
  match (getPipBin ctx bin_env).1 with
  | .error e => .vErrNoTemp e
  | .ok pipBin =>
    let base := [pipBin, "install"]
    let actRes : Except PipErr (List String) :=
      if a.activate && truthyStr bin_env then
        if !ctx.is_windows then
          match getEnvActivate ctx bin_env with
          | .error e => .error e
          | .ok act => .ok ([".", act, "&&"] ++ base)
        else .ok base
      else .ok base
    match actRes with
    | .error e => .vErrNoTemp e
    | .ok cmd1 =>
      let cmd2 := cmd1 ++
        (match a.pkgs with
         | none => []
         | some p =>
           if p.truthy then
             (normalizeCommaList p).map (fun t => pyReplaceChar t ';' ',')
           else [])
      match (match a.editable with
             | none => (.ok [] : Except PipErr (List String))
             | some e =>
               if e.truthy then editableTokens (normalizeCommaList e)
               else .ok []) with
      | .error e => .vErrNoTemp e
      | .ok edT =>
        let cmd3 := cmd2 ++ edT
        match (if truthyStr a.requirements then
                 (let r := a.requirements.getD ""
                  if pyStartsWith r "salt://" then
                    (if (getCachedRequirements ctx r).1 = "" then
                       .inl ("pip requirements file " ++ pyRepr r ++ " not found")
                     else .inr (some (getCachedRequirements ctx r).1))
                  else .inr (some r))
               else (.inr none : Sum String (Option String))) with
        | .inl comment => .notFound comment
        | .inr req? =>
          -- With runas set and chown not suppressed the source copies the
          -- file to a fresh mkstemp path, chowns it to runas, and references
          -- the copy in the token; otherwise it references the path itself.
          let pair : List String × Option String :=
            match req? with
            | none => ([], none)
            | some r =>
              if truthyStr a.runas && !a.no_chown then
                (["--requirement=" ++ pyRepr ctx.mkstemp], some ctx.mkstemp)
              else (["--requirement=" ++ pyRepr r], none)
          match postReqTokens ctx a with
          | .error e =>
            match pair.2 with
            | some t => .vErrTemp e t
            | none => .vErrNoTemp e
          | .ok post => .go (cmd3 ++ pair.1 ++ post) pair.2

/-- What install hands back: either the run_all result record or the
structured not-found value. -/
inductive InstallOut where
  | run (r : RunResult)
  | notFound (comment : String)
deriving DecidableEq

/-- Observable outcome of one install call: the returned value or escaping
exception, the token list joined and spawned if the call reached run_all, the
temporary requirements copy if one was made, and whether that copy still
exists when the call returns. -/
structure InstallResult where
  outcome : Except PipErr InstallOut
  spawned : Option (List String)
  temp : Option String
  tempExistsAfter : Bool

/-- Embedding of install.  The try block of the source wraps only the spawn,
so the finally deletes the temporary copy exactly when control reached the
spawn; an exception raised by the option validations that run after the copy
was made propagates without that cleanup. -/
def install (ctx : PipEnv) (a : InstallArgs) : InstallResult :=
  match installBuild ctx a with
  | .vErrNoTemp e => ⟨.error e, none, none, false⟩
  | .notFound c => ⟨.ok (.notFound c), none, none, false⟩
  | .vErrTemp e t => ⟨.error e, none, some t, true⟩
  | .go cmd treq =>
    match ctx.run_all (pyJoin " " cmd) a.runas a.cwd with
    | .ok r => ⟨.ok (.run r), some cmd, treq, false⟩
    | .error e => ⟨.error e, some cmd, treq, false⟩

/-! ### Uninstall -/

/-- Observable outcome of one uninstall call, with the same bookkeeping as
install: returned value or escaping exception, the spawned command string if
the call reached run_all, the temporary copy if one was made, and whether it
still exists when the call returns. -/
structure UninstallResult where
  outcome : Except PipErr RunResult
  spawned : Option String
  temp : Option String
  tempExistsAfter : Bool

/-- Outcome of assembling the uninstall command string: a raised validation
or resolution error (with the temporary copy if one had been made by then),
or the finished command string. -/
inductive UBuild where
  | err (e : PipErr) (treq : Option String)
  | go (cmd : String) (treq : Option String)
deriving DecidableEq

/-- Embedding of the body of uninstall up to but excluding the spawn.  The
command is assembled as one space-joined string.  A salt URI requirements
source is cached through cp.cache_file and copied to a fresh mkstemp path
referenced by the token; a local path is referenced directly. -/
def uninstallBuild (ctx : PipEnv)
    (pkgs requirements bin_env log proxy timeout : Option String) : UBuild :=
  match (getPipBin ctx bin_env).1 with
  | .error e => .err e none
  | .ok pipBin =>
    let cmd0 := pipBin ++ " uninstall -y "
    let cmd1 :=
      if truthyStr pkgs then
        cmd0 ++ " " ++ pyReplaceChar (pkgs.getD "") ',' ' ' ++ " "
      else cmd0
    let pair : String × Option String :=
      if truthyStr requirements then
        (if pyStartsWith (requirements.getD "") "salt://" then
          (cmd1 ++ " --requirements " ++ pyRepr ctx.mkstemp ++ " ", some ctx.mkstemp)
         else
          (cmd1 ++ " --requirements " ++ pyRepr (requirements.getD "") ++ " ", none))
      else (cmd1, none)
    -- The log branch wraps os.path.exists in a try whose IOError handler is
    -- dead code, so it only appends its token.
    let cmd3 := if truthyStr log then pair.1 ++ " --" ++ log.getD "" ++ " " else pair.1
    let cmd4 :=
      if truthyStr proxy then cmd3 ++ " --proxy=" ++ proxy.getD "" ++ " " else cmd3
    if truthyStr timeout then
      if pyIntParses (timeout.getD "") then
        .go (cmd4 ++ " --timeout=" ++ timeout.getD "" ++ " ") pair.2
      else
        .err (.valueError (pyQuote ++ timeout.getD "" ++ pyQuote ++
          " is not a valid integer base 10.")) pair.2
    else .go cmd4 pair.2

/-- Embedding of uninstall.  There is no try block around the spawn: the
temporary copy is deleted only on the path where run_all returned normally
and the requirements source is a salt URI, so a raised validation error or a
raising spawn leaves the copy behind. -/
def uninstall (ctx : PipEnv)
    (pkgs requirements bin_env log proxy timeout runas cwd : Option String) :
    UninstallResult :=
  match uninstallBuild ctx pkgs requirements bin_env log proxy timeout with
  | .err e treq => ⟨.error e, none, treq, treq.isSome⟩
  | .go cmd treq =>
    match ctx.run_all cmd runas cwd with
    | .error e => ⟨.error e, some cmd, treq, treq.isSome⟩
    | .ok r =>
      let removed := treq.isSome && pyStartsWith (requirements.getD "") "salt://"
      ⟨.ok r, some cmd, treq, treq.isSome && !removed⟩

/-! ### Freeze and list -/

/-- Embedding of freeze: spawn pip freeze, raise CommandExecutionError with
the captured stderr on a positive exit code, otherwise return the split
stdout lines. -/
def freeze (ctx : PipEnv) (bin_env runas cwd : Option String) :
    Except PipErr (List String) :=
  match (getPipBin ctx bin_env).1 with
  | .error e => .error e
  | .ok pipBin =>
    match ctx.run_all (pipBin ++ " freeze") runas cwd with
    | .error e => .error e
    | .ok r =>
      if r.retcode > 0 then .error (.executionError r.stderr)
      else .ok (pySplitlines r.stdout)

/-- Insertion into the packages dict of list, with Python dict semantics on
an association list kept in insertion order: replace the value under an
existing key, append a fresh key at the end. -/
def dictInsert (d : List (String × String)) (k v : String) :
    List (String × String) :=
  if d.any (fun p => p.1 == k) then
    d.map (fun p => if p.1 == k then (k, v) else p)
  else d ++ [(k, v)]

/-- Lookup in the packages dict. -/
def dictLookup (d : List (String × String)) (k : String) : Option String :=
  (d.find? (fun p => p.1 == k)).map (fun p => p.2)

/-- One iteration of the line loop in list.  The carried state is the pair of
locals name and version, absent before any line has bound them; reading them
while absent models the NameError Python raises on an unbound local.  An
editable line is split on the editable marker (IndexError if nothing follows)
and its remainder unpacked around the egg separator (ValueError unless the
split has exactly two parts); a line with a double-equals separator binds
name and version; any other line binds nothing and falls through to the
recording step with the previous bindings. -/
def freezeStep (pfx : String) (st : Option (String × String))
    (packages : List (String × String)) (line : String) :
    Except PipErr (Option (String × String) × List (String × String)) :=
  let nv? : Except PipErr (Option (String × String)) :=
    if pyStartsWith line "-e" then
      match (pySplit line "-e ").get? 1 with
      | none => .error .indexError
      | some rest =>
        match pySplit rest "#egg=" with
        | [version, name] => .ok (some (name, version))
        | _ => .error .unpackValueError
    else
      match pySplit line "==" with
      | name :: version :: _ => .ok (some (name, version))
      | _ => .ok st
  match nv? with
  | .error e => .error e
  | .ok st' =>
    match st' with
    | none => .error .nameError
    | some (name, version) =>
      if !(pfx == "") then
        if pyStartsWith (pyLowerStr name) (pyLowerStr pfx) then
          .ok (st', dictInsert packages name version)
        else .ok (st', packages)
      else .ok (st', dictInsert packages name version)

/-- The line loop of list folded over the freeze output. -/
def parseFreezeAux (pfx : String) :
    Option (String × String) → List (String × String) → List String →
    Except PipErr (List (String × String))
  | _, packages, [] => .ok packages
  | st, packages, line :: rest =>
    match freezeStep pfx st packages line with
    | .error e => .error e
    | .ok (st', packages') => parseFreezeAux pfx st' packages' rest

/-- Parse a list of freeze lines into the packages dict. -/
def parseFreezeLines (pfx : String) (lines : List String) :
    Except PipErr (List (String × String)) :=
  parseFreezeAux pfx none [] lines

/-- Embedding of list: spawn pip freeze, raise CommandExecutionError with the
captured stderr on a positive exit code, otherwise run the line loop over the
split stdout. -/
def list_ (ctx : PipEnv) (pfx : String) (bin_env runas cwd : Option String) :
    Except PipErr (List (String × String)) :=
  match (getPipBin ctx bin_env).1 with
  | .error e => .error e
  | .ok pipBin =>
    match ctx.run_all (pipBin ++ " freeze") runas cwd with
    | .error e => .error e
    | .ok r =>
      if r.retcode > 0 then .error (.executionError r.stderr)
      else parseFreezeLines pfx (pySplitlines r.stdout)

/-! ### Reference functions and concrete environments used by the theorems -/

/-- Reference splitter for a one-character separator, structurally recursive
on the input, used to reason about pySplitFuel. -/
def splitCharSpec (c0 : Char) : List Char → List (List Char)
  | [] => [[]]
  | c :: rest =>
    if c0 == c then [] :: splitCharSpec c0 rest
    else
      match splitCharSpec c0 rest with
      | [] => [[c]]
      | g :: gs => (c :: g) :: gs

/-- Join of character groups with a one-character separator, the reference
inverse of splitCharSpec. -/
def joinChars (c0 : Char) : List (List Char) → List Char
  | [] => []
  | [x] => x
  | x :: y :: rest => x ++ c0 :: joinChars c0 (y :: rest)

/-- A collaborator environment whose spawn succeeds with an empty result and
whose cache misses everywhere; closed statements that need different
collaborator behaviour override individual fields. -/
def baseCtx : PipEnv :=
  { which_bin := fun _ => some "/usr/bin/pip"
    is_windows := false
    isdir := fun _ => false
    isfile := fun _ => false
    valid_url := fun _ _ => true
    is_cached := fun _ => ""
    cache_file := fun _ => ""
    hash_file := fun _ => ""
    mkstemp := "/tmp/tmpWq3Ab2"
    run_all := fun _ _ _ => .ok ⟨0, "", ""⟩ }

/-- Environment whose freeze output holds one plain and one editable line. -/
def ctxFreeze : PipEnv :=
  { baseCtx with
    run_all := fun _ _ _ => .ok ⟨0, "django==1.5\n-e git+https://x#egg=foo", ""⟩ }

/-- Environment whose spawn reports a negative exit code with output. -/
def ctxNeg : PipEnv :=
  { baseCtx with run_all := fun _ _ _ => .ok ⟨-1, "x==1", "boom"⟩ }

/-- Environment whose spawn reports exit code one with a diagnostic. -/
def ctxPos : PipEnv :=
  { baseCtx with run_all := fun _ _ _ => .ok ⟨1, "", "pip blew up"⟩ }

/-- Environment with a cached requirements copy whose hash differs from the
upstream hash. -/
def ctxHashDiff : PipEnv :=
  { baseCtx with
    is_cached := fun _ => "/var/cache/reqs.txt"
    cache_file := fun _ => "/var/cache/fresh.txt"
    hash_file := fun p => if p = "/var/cache/reqs.txt" then "aaa" else "bbb" }

/-- Environment with a cached requirements copy whose hash matches the
upstream hash. -/
def ctxHashSame : PipEnv :=
  { baseCtx with
    is_cached := fun _ => "/var/cache/reqs.txt"
    cache_file := fun _ => "/var/cache/fresh.txt"
    hash_file := fun _ => "aaa" }

/-- Environment whose freeze output is a single line that is neither an
editable line nor a name and version pair. -/
def ctxBadLine : PipEnv :=
  { baseCtx with run_all := fun _ _ _ => .ok ⟨0, "oops", ""⟩ }

/-- A POSIX environment where bin_env is a directory holding no pip file. -/
def ctxVenvPosix : PipEnv :=
  { baseCtx with isdir := fun _ => true, isfile := fun _ => false }

/-- A Windows environment where bin_env is a directory holding no pip file. -/
def ctxVenvWin : PipEnv :=
  { baseCtx with is_windows := true, isdir := fun _ => true, isfile := fun _ => false }

/-! ### Lemmas about the split and join models -/

theorem splitCharSpec_ne_nil (c0 : Char) (l : List Char) :
    splitCharSpec c0 l ≠ [] := by
  induction l with
  | nil => simp [splitCharSpec]
  | cons c rest ih =>
    simp only [splitCharSpec]
    split
    · simp
    · split
      · simp
      · simp

theorem pySplitFuel_single (c0 : Char) (l : List Char) :
    ∀ fuel : Nat, l.length ≤ fuel → pySplitFuel [c0] fuel l = splitCharSpec c0 l := by
  induction l with
  | nil => intro fuel _; cases fuel <;> rfl
  | cons c rest ih =>
    intro fuel h
    cases fuel with
    | zero => simp at h
    | succ f =>
      have hf : rest.length ≤ f := by simp at h; omega
      simp only [pySplitFuel, splitCharSpec, List.isPrefixOf_cons₂,
        List.isPrefixOf_nil_left, Bool.and_true, List.length_cons,
        List.length_nil, Nat.sub_self, List.drop_zero]
      by_cases hc : (c0 == c) = true
      · simp [hc, ih f hf]
      · simp only [Bool.not_eq_true] at hc
        simp [hc, ih f hf]

theorem splitCharSpec_append (c0 : Char) (x : List Char) (hx : c0 ∉ x) :
    ∀ l g gs, splitCharSpec c0 l = g :: gs →
      splitCharSpec c0 (x ++ l) = (x ++ g) :: gs := by
  induction x with
  | nil => intro l g gs h; simpa using h
  | cons c x' ih =>
    intro l g gs h
    have hc : (c0 == c) = false := by
      simp only [List.mem_cons, not_or] at hx
      simpa [beq_iff_eq] using hx.1
    have hx' : c0 ∉ x' := by
      simp only [List.mem_cons, not_or] at hx
      exact hx.2
    simp only [List.cons_append, splitCharSpec, hc, Bool.false_eq_true,
      if_false]
    rw [show x'.append l = x' ++ l from rfl, ih hx' l g gs h]

theorem splitCharSpec_joinChars (c0 : Char) :
    ∀ ts : List (List Char), ts ≠ [] → (∀ x ∈ ts, c0 ∉ x) →
      splitCharSpec c0 (joinChars c0 ts) = ts
  | [], h, _ => absurd rfl h
  | [x], _, hx => by
    have h0 : splitCharSpec c0 ([] : List Char) = [] :: [] := by simp [splitCharSpec]
    have := splitCharSpec_append c0 x (hx x (by simp)) [] [] [] h0
    simpa [joinChars] using this
  | x :: y :: rest, _, hx => by
    have ihyp := splitCharSpec_joinChars c0 (y :: rest) (by simp)
      (fun z hz => hx z (List.mem_cons_of_mem _ hz))
    have hstep : splitCharSpec c0 (c0 :: joinChars c0 (y :: rest)) =
        [] :: (y :: rest) := by
      simp [splitCharSpec, ihyp]
    have := splitCharSpec_append c0 x (hx x (by simp))
      (c0 :: joinChars c0 (y :: rest)) [] (y :: rest) hstep
    simpa [joinChars] using this

theorem string_mk_data (s : String) : String.mk s.data = s := rfl

theorem pyJoin_data_single (sep : String) (c0 : Char) (hsep : sep.data = [c0]) :
    ∀ ts : List String, (pyJoin sep ts).data = joinChars c0 (ts.map String.data)
  | [] => rfl
  | [x] => rfl
  | x :: y :: rest => by
    simp only [pyJoin, joinChars, List.map_cons, String.data_append,
      pyJoin_data_single sep c0 hsep (y :: rest), hsep]
    simp

theorem pySplit_single (s sep : String) (c0 : Char) (hsep : sep.data = [c0]) :
    pySplit s sep = (splitCharSpec c0 s.data).map (fun cs => String.mk cs) := by
  unfold pySplit
  rw [hsep, pySplitFuel_single c0 s.data s.data.length (Nat.le_refl _)]

theorem pySplit_pyJoin (sep : String) (c0 : Char) (hsep : sep.data = [c0])
    (ts : List String) (hne : ts ≠ []) (hx : ∀ t ∈ ts, c0 ∉ t.data) :
    pySplit (pyJoin sep ts) sep = ts := by
  rw [pySplit_single _ sep c0 hsep, pyJoin_data_single sep c0 hsep ts,
    splitCharSpec_joinChars c0 (ts.map String.data)
      (by simpa using hne)
      (by intro x hxm
          rcases List.mem_map.mp hxm with ⟨t, ht, rfl⟩
          exact hx t ht)]
  rw [List.map_map]
  exact (List.map_congr_left fun t _ => rfl).trans (List.map_id ts)

/-! ### Lemmas about the escape of commas as semicolons -/

theorem pySpaceChar_escape (c : Char) :
    pySpaceChar (if c == ',' then ';' else c) = pySpaceChar c := by
  by_cases h : c == ','
  · simp only [h, if_true]
    have : c = ',' := by simpa [beq_iff_eq] using h
    subst this
    decide
  · simp [h]

theorem pyStripChars_map (f : Char → Char)
    (hf : ∀ c, pySpaceChar (f c) = pySpaceChar c) (l : List Char) :
    pyStripChars (l.map f) = (pyStripChars l).map f := by
  unfold pyStripChars
  have hcomp : pySpaceChar ∘ f = pySpaceChar := funext hf
  rw [List.dropWhile_map, hcomp, ← List.map_reverse, List.dropWhile_map, hcomp,
    ← List.map_reverse]

theorem pyStrip_escape (t : String) (h : pyStrip t = t) :
    pyStrip (pyReplaceChar t ',' ';') = pyReplaceChar t ',' ';' := by
  have hdata : pyStripChars t.data = t.data := congrArg String.data h
  unfold pyStrip pyReplaceChar
  simp only
  rw [pyStripChars_map _ pySpaceChar_escape, hdata]

theorem escape_no_comma (t : String) : ',' ∉ (pyReplaceChar t ',' ';').data := by
  unfold pyReplaceChar
  simp only [List.mem_map, not_exists, not_and]
  intro c _
  by_cases h : c = ','
  · subst h; simp
  · simp [h]

theorem unescape_escape (t : String) (h : ';' ∉ t.data) :
    pyReplaceChar (pyReplaceChar t ',' ';') ';' ',' = t := by
  unfold pyReplaceChar
  simp only [List.map_map]
  have hmap : ∀ c ∈ t.data,
      ((fun c => if c == ';' then ',' else c) ∘ fun c => if c == ',' then ';' else c) c
        = id c := by
    intro c hc
    simp only [Function.comp_apply, id_eq]
    by_cases h1 : c = ','
    · subst h1; simp
    · have h2 : c ≠ ';' := fun hs => h (hs ▸ hc)
      simp [h1, h2]
  rw [List.map_congr_left hmap, List.map_id]

theorem string_ne_empty_of_data_ne_nil (s : String) (h : s.data ≠ []) : s ≠ "" := by
  intro he
  exact h (congrArg String.data he)

/-- The comma normalisation of install applied to a comma-joined string of
comma-escaped tokens recovers exactly the escaped tokens. -/
theorem normalize_escaped_join (ts : List String) (hne : ts ≠ [])
    (ht : ∀ t ∈ ts, pyStrip t = t) :
    normalizeCommaList (.str (pyJoin "," (ts.map fun t => pyReplaceChar t ',' ';'))) =
      ts.map (fun t => pyReplaceChar t ',' ';') := by
  cases ts with
  | nil => exact absurd rfl hne
  | cons t1 rest =>
    cases rest with
    | nil =>
      simp only [List.map_cons, List.map_nil, pyJoin, normalizeCommaList]
      have hcon : pyContains (pyReplaceChar t1 ',' ';') ',' = false := by
        unfold pyContains
        simpa using escape_no_comma t1
      simp [hcon]
    | cons t2 rest2 =>
      have hxesc : ∀ e ∈ (t1 :: t2 :: rest2).map (fun t => pyReplaceChar t ',' ';'),
          ',' ∉ e.data := by
        intro e he
        rcases List.mem_map.mp he with ⟨t, _, rfl⟩
        exact escape_no_comma t
      have hcon : pyContains
          (pyJoin "," ((t1 :: t2 :: rest2).map fun t => pyReplaceChar t ',' ';')) ','
            = true := by
        unfold pyContains
        simp only [List.map_cons, pyJoin, String.data_append]
        simp
      simp only [normalizeCommaList, hcon, if_true]
      rw [pySplit_pyJoin "," ',' rfl _ (by simp) hxesc]
      have hstrips : ∀ e ∈ (t1 :: t2 :: rest2).map (fun t => pyReplaceChar t ',' ';'),
          pyStrip e = id e := by
        intro e he
        rcases List.mem_map.mp he with ⟨t, htm, rfl⟩
        exact pyStrip_escape t (ht t htm)
      rw [List.map_congr_left hstrips, List.map_id]

/-- The full round trip: normalising and unescaping the comma-joined list of
escaped tokens gives back the intended tokens. -/
theorem normalize_unescape_roundtrip (ts : List String) (hne : ts ≠ [])
    (ht : ∀ t ∈ ts, ';' ∉ t.data ∧ pyStrip t = t) :
    (normalizeCommaList
        (.str (pyJoin "," (ts.map fun t => pyReplaceChar t ',' ';')))).map
      (fun t => pyReplaceChar t ';' ',') = ts := by
  rw [normalize_escaped_join ts hne (fun t htm => (ht t htm).2), List.map_map]
  have hun : ∀ t ∈ ts,
      ((fun t => pyReplaceChar t ';' ',') ∘ fun t => pyReplaceChar t ',' ';') t
        = id t := by
    intro t htm
    exact unescape_escape t (ht t htm).1
  rw [List.map_congr_left hun, List.map_id]

/-! ### Reduction lemmas for install -/

theorem postReqTokens_defaults (ctx : PipEnv) (p : Option StrOrList)
    (r e be ra cw : Option String) (nc act : Bool) :
    postReqTokens ctx
      { pkgs := p, requirements := r, env := e, bin_env := be, runas := ra,
        no_chown := nc, cwd := cw, activate := act } = .ok [] := by
  simp [postReqTokens, truthyStr, solTruthy, pure, Except.pure, bind, Except.bind]

theorem getPipBin_literal (ctx : PipEnv) (b : String) (hb : b ≠ "")
    (hdir : ctx.isdir b = false) : getPipBin ctx (some b) = (.ok b, false) := by
  simp [getPipBin, truthyStr, hb, hdir]

/-- With only a package argument and a literal pip path, install assembles
exactly the binary, the install verb and the normalised packages. -/
theorem installBuild_pkgs_only (ctx : PipEnv) (p : StrOrList) (b : String)
    (hb : b ≠ "") (hdir : ctx.isdir b = false) (hp : p.truthy = true) :
    installBuild ctx { pkgs := some p, bin_env := some b } =
      .go ([b, "install"] ++
        (normalizeCommaList p).map (fun t => pyReplaceChar t ';' ',')) none := by
  unfold installBuild
  simp [getPipBin, truthyStr, hb, hdir, hp, postReqTokens_defaults]

/-- Whenever assembly reaches the spawn, the spawned token list is the
assembled command, whether run_all returns or raises. -/
theorem install_spawned_of_go (ctx : PipEnv) (a : InstallArgs)
    (cmd : List String) (treq : Option String)
    (h : installBuild ctx a = .go cmd treq) :
    (install ctx a).spawned = some cmd := by
  unfold install
  rw [h]
  cases hr : ctx.run_all (pyJoin " " cmd) a.runas a.cwd <;> simp [hr]

theorem data_ne_nil (t : String) (h : t ≠ "") : t.data ≠ [] := by
  intro hd
  apply h
  cases t with
  | mk d =>
    simp only at hd
    subst hd
    rfl

theorem pyJoin_comma_data_ne_nil (es : List String) (hne : es ≠ [])
    (h1 : ∀ x ∈ es, x.data ≠ []) : (pyJoin "," es).data ≠ [] := by
  cases es with
  | nil => exact absurd rfl hne
  | cons x rest =>
    cases rest with
    | nil => simpa [pyJoin] using h1 x (by simp)
    | cons y r2 => simp [pyJoin, String.data_append]

/-- In uninstall assembly, a temporary copy is only ever made for a salt URI
requirements source. -/
theorem uninstallBuild_go_salt (ctx : PipEnv)
    (pkgs requirements bin_env log proxy timeout : Option String)
    (cmd : String) (t : String)
    (h : uninstallBuild ctx pkgs requirements bin_env log proxy timeout
        = .go cmd (some t)) :
    pyStartsWith (requirements.getD "") "salt://" = true := by
  unfold uninstallBuild at h
  split at h
  · simp at h
  · by_cases hsalt : pyStartsWith (requirements.getD "") "salt://" = true
    · exact hsalt
    · exfalso
      simp only [hsalt, Bool.false_eq_true, if_false, apply_ite Prod.snd,
        ite_self] at h
      rcases Bool.eq_false_or_eq_true (truthyStr timeout) with h1 | h1 <;>
        rcases Bool.eq_false_or_eq_true (pyIntParses (timeout.getD "")) with h2 | h2 <;>
        simp [h1, h2] at h

/-! ### C9 -/

/-- C9: for every comma-joined package string, the normalisation install
performs (splitting on commas, stripping whitespace, then replacing each
semicolon with a comma inside every token) round-trips to the intended
package list, and those packages appear in the command tokens in their
original order immediately after the install token.  The intended list is any
list of trimmed non-empty semicolon-free tokens, comma-escaped and joined
with commas to form the argument string. -/
theorem install_pkgs_roundtrip (ctx : PipEnv) (ts : List String) (b : String)
    (hb : b ≠ "") (hdir : ctx.isdir b = false) (hne : ts ≠ [])
    (ht : ∀ t ∈ ts, t ≠ "" ∧ ';' ∉ t.data ∧ pyStrip t = t) :
    (install ctx
        { pkgs := some (.str (pyJoin "," (ts.map fun t => pyReplaceChar t ',' ';'))),
          bin_env := some b }).spawned = some ([b, "install"] ++ ts) := by
  have hdata : ∀ x ∈ ts.map (fun t => pyReplaceChar t ',' ';'), x.data ≠ [] := by
    intro x hx
    rcases List.mem_map.mp hx with ⟨t, htm, rfl⟩
    have hd := data_ne_nil t (ht t htm).1
    simpa [pyReplaceChar] using hd
  have hs : pyJoin "," (ts.map fun t => pyReplaceChar t ',' ';') ≠ "" :=
    string_ne_empty_of_data_ne_nil _
      (pyJoin_comma_data_ne_nil _ (by simpa using hne) hdata)
  have hp : (StrOrList.str
      (pyJoin "," (ts.map fun t => pyReplaceChar t ',' ';'))).truthy = true := by
    simp [StrOrList.truthy, hs]
  have hbuild := installBuild_pkgs_only ctx _ b hb hdir hp
  rw [normalize_unescape_roundtrip ts hne
    (fun t htm => ⟨(ht t htm).2.1, (ht t htm).2.2⟩)] at hbuild
  exact install_spawned_of_go ctx _ _ _ hbuild

/-- Witness for C9 at a two-token list whose first token is a version range
holding an escaped comma. -/
theorem install_pkgs_roundtrip_inst :
    (install baseCtx
        { pkgs := some (.str (pyJoin ","
            (["django>=1.3,<1.6", "markdown"].map fun t => pyReplaceChar t ',' ';'))),
          bin_env := some "/usr/bin/pip" }).spawned
      = some ["/usr/bin/pip", "install", "django>=1.3,<1.6", "markdown"] :=
  install_pkgs_roundtrip baseCtx ["django>=1.3,<1.6", "markdown"] "/usr/bin/pip"
    (by decide) (by decide) (by decide) (by decide)

/-! ### C1 -/

/-- C1 counterexample: this install call makes the temporary re-owned copy of
the requirements file (runas is set and chown not suppressed) and then fails
timeout validation; it returns with the temporary file still existing, so the
claim that the file is removed regardless of outcome, including argument
validation failures after the copy, is false on the code. -/
theorem install_validation_after_copy_leaks_temp :
    (install baseCtx
        { requirements := some "/srv/app/reqs.txt", runas := some "bob",
          timeout := some "abc", bin_env := some "/usr/bin/pip" }).temp
      = some "/tmp/tmpWq3Ab2" ∧
    (install baseCtx
        { requirements := some "/srv/app/reqs.txt", runas := some "bob",
          timeout := some "abc", bin_env := some "/usr/bin/pip" }).tempExistsAfter
      = true ∧
    (install baseCtx
        { requirements := some "/srv/app/reqs.txt", runas := some "bob",
          timeout := some "abc", bin_env := some "/usr/bin/pip" }).outcome
      = .error (.valueError (pyRepr "abc" ++ " is not a valid integer base 10.")) := by
  refine ⟨by decide, by decide, by decide⟩

/-- C1 (amended): the temporary requirements copy is removed once the call
reaches the spawn: for install whenever run_all was invoked, whether it
returned or raised, and for uninstall whenever run_all returned normally.
Argument-validation failures raised after the copy (install) and raising
spawns (uninstall) fall outside the cleanup guarantee. -/
theorem temp_removed_once_spawn_reached :
    (∀ (ctx : PipEnv) (a : InstallArgs),
        (install ctx a).spawned.isSome = true →
        (install ctx a).tempExistsAfter = false) ∧
    (∀ (ctx : PipEnv)
        (pkgs requirements bin_env log proxy timeout runas cwd : Option String)
        (r : RunResult),
        (uninstall ctx pkgs requirements bin_env log proxy timeout runas cwd).outcome
          = .ok r →
        (uninstall ctx pkgs requirements bin_env log proxy timeout runas cwd).tempExistsAfter
          = false) := by
  constructor
  · intro ctx a h
    unfold install at h ⊢
    cases hb : installBuild ctx a <;> simp only [hb] at h ⊢ <;> try simp at h
    case go cmd treq =>
      cases hr : ctx.run_all (pyJoin " " cmd) a.runas a.cwd <;> simp [hr]
  · intro ctx pkgs requirements bin_env log proxy timeout runas cwd r h
    unfold uninstall at h ⊢
    cases ub : uninstallBuild ctx pkgs requirements bin_env log proxy timeout with
    | err e treq => simp only [ub] at h; simp at h
    | go cmd treq =>
      simp only [ub] at h ⊢
      cases hr : ctx.run_all cmd runas cwd with
      | error e => simp only [hr] at h; simp at h
      | ok r2 =>
        simp only [hr]
        cases treq with
        | none => simp
        | some t =>
          have hsalt := uninstallBuild_go_salt ctx pkgs requirements bin_env
            log proxy timeout cmd t ub
          simp [hsalt]

/-- Witness for C1 (amended): an install call that reaches the spawn with a
temporary copy, and an uninstall call whose spawn returns normally, both come
back with the temporary file gone. -/
theorem temp_removed_once_spawn_reached_inst :
    (install baseCtx
        { requirements := some "/srv/app/reqs.txt", runas := some "bob",
          bin_env := some "/usr/bin/pip" }).tempExistsAfter = false ∧
    (uninstall baseCtx none (some "salt://reqs.txt") (some "/usr/bin/pip")
        none none none none none).tempExistsAfter = false :=
  ⟨temp_removed_once_spawn_reached.1 baseCtx
      { requirements := some "/srv/app/reqs.txt", runas := some "bob",
        bin_env := some "/usr/bin/pip" } (by decide),
   temp_removed_once_spawn_reached.2 baseCtx none (some "salt://reqs.txt")
      (some "/usr/bin/pip") none none none none none ⟨0, "", ""⟩ (by decide)⟩

/-! ### C2 -/

/-- C2 (code bug): with a non-empty build directory, install raises
IndexError out of str.format (the format string uses the positional
placeholder but only a keyword argument is supplied) instead of appending the
build token; the sibling directory options target, download, download_cache
and source do append their tokens one-to-one as the claim states. -/
theorem install_build_format_indexerror :
    (install baseCtx
        { pkgs := some (.str "pep8"), build := some "/tmp/build",
          bin_env := some "/usr/bin/pip" }).outcome = .error .indexError ∧
    (install baseCtx
        { pkgs := some (.str "pep8"), build := some "/tmp/build",
          bin_env := some "/usr/bin/pip" }).spawned = none ∧
    (install baseCtx
        { pkgs := some (.str "pep8"), target := some "/t", download := some "/d",
          download_cache := some "/dc", source := some "/s",
          bin_env := some "/usr/bin/pip" }).spawned
      = some ["/usr/bin/pip", "install", "pep8", "--target=/t", "--download=/d",
          "--download-cache=/dc", "--source=/s"] := by
  refine ⟨by decide, by decide, by decide⟩

/-! ### C3 -/

theorem getCached_fst_empty (ctx : PipEnv) (r : String)
    (h1 : ctx.is_cached r = "") (h2 : ctx.cache_file r = "") :
    (getCachedRequirements ctx r).1 = "" := by
  unfold getCachedRequirements
  simp [h1, h2, apply_ite Prod.fst]

/-- C3: when the requirements source is a salt URI for which the caching
collaborator yields no local copy, install returns the structured value with
result false and a comment naming the requirements file, raises nothing,
spawns no process and creates no temporary file. -/
theorem install_missing_remote_requirements (ctx : PipEnv) (r b : String)
    (hb : b ≠ "") (hdir : ctx.isdir b = false)
    (hr : pyStartsWith r "salt://" = true) (hrne : r ≠ "")
    (h1 : ctx.is_cached r = "") (h2 : ctx.cache_file r = "") :
    (install ctx { requirements := some r, bin_env := some b }).outcome
      = .ok (.notFound ("pip requirements file " ++ pyRepr r ++ " not found")) ∧
    (install ctx { requirements := some r, bin_env := some b }).spawned = none ∧
    (install ctx { requirements := some r, bin_env := some b }).temp = none := by
  have hbuild : installBuild ctx { requirements := some r, bin_env := some b }
      = .notFound ("pip requirements file " ++ pyRepr r ++ " not found") := by
    unfold installBuild
    simp [getPipBin_literal ctx b hb hdir, truthyStr, hrne, hr,
      getCached_fst_empty ctx r h1 h2, StrOrList.truthy, solTruthy]
  unfold install
  rw [hbuild]
  exact ⟨rfl, rfl, rfl⟩

/-- Witness for C3 at a salt URI with an always-missing cache. -/
theorem install_missing_remote_requirements_inst :
    (install baseCtx
        { requirements := some "salt://reqs.txt", bin_env := some "/usr/bin/pip" }).outcome
      = .ok (.notFound ("pip requirements file " ++ pyRepr "salt://reqs.txt" ++
          " not found")) ∧
    (install baseCtx
        { requirements := some "salt://reqs.txt", bin_env := some "/usr/bin/pip" }).spawned
      = none ∧
    (install baseCtx
        { requirements := some "salt://reqs.txt", bin_env := some "/usr/bin/pip" }).temp
      = none :=
  install_missing_remote_requirements baseCtx "salt://reqs.txt" "/usr/bin/pip"
    (by decide) (by decide) (by decide) (by decide) (by decide) (by decide)

/-! ### C4 -/

/-- C4: when the upstream hash of a remote requirements URI differs from the
hash of the cached copy, the acquirer calls the cache-file collaborator
exactly one more time than the initial resolution needed and returns the
re-fetched path; when the hashes agree it performs no re-fetch and returns
the cached path. -/
theorem cached_requirements_refetch (ctx : PipEnv) (req cached0 : String)
    (hc : cached0
      = (if ctx.is_cached req = "" then ctx.cache_file req else ctx.is_cached req)) :
    (ctx.hash_file req ≠ ctx.hash_file cached0 →
      getCachedRequirements ctx req
        = (ctx.cache_file req, (if ctx.is_cached req = "" then 1 else 0) + 1)) ∧
    (ctx.hash_file req = ctx.hash_file cached0 →
      getCachedRequirements ctx req
        = (cached0, if ctx.is_cached req = "" then 1 else 0)) := by
  subst hc
  constructor
  · intro h
    unfold getCachedRequirements
    by_cases hc0 : ctx.is_cached req = ""
    · rw [if_pos hc0] at h
      simp [hc0, h]
    · rw [if_neg hc0] at h
      simp [hc0, h]
  · intro h
    unfold getCachedRequirements
    by_cases hc0 : ctx.is_cached req = ""
    · rw [if_pos hc0] at h
      simp [hc0, h]
    · rw [if_neg hc0] at h
      simp [hc0, h]

/-- Witness for C4: a hash mismatch on an already-cached copy triggers one
re-fetch and returns the fresh path; matching hashes return the cached path
with no fetch at all. -/
theorem cached_requirements_refetch_inst :
    getCachedRequirements ctxHashDiff "salt://reqs.txt" = ("/var/cache/fresh.txt", 1) ∧
    getCachedRequirements ctxHashSame "salt://reqs.txt" = ("/var/cache/reqs.txt", 0) :=
  ⟨(cached_requirements_refetch ctxHashDiff "salt://reqs.txt" _ rfl).1 (by decide),
   (cached_requirements_refetch ctxHashSame "salt://reqs.txt" _ rfl).2 (by decide)⟩

/-! ### C5 -/

/-- C5: when bin_env is an existing directory in which the platform pip
subpath (Scripts with pip.exe on Windows, bin with pip on POSIX) is not a
file, binary resolution raises the binary-not-found error and never falls
back to a PATH search (second component false records that cmd.which_bin was
not consulted). -/
theorem pip_bin_dir_missing (ctx : PipEnv) (b : String) (hb : b ≠ "")
    (hdir : ctx.isdir b = true)
    (hfile : ctx.isfile
        (if ctx.is_windows then osPathJoin2 true b "Scripts" "pip.exe"
         else osPathJoin2 false b "bin" "pip") = false) :
    getPipBin ctx (some b)
      = (.error (.commandNotFound "Could not find a `pip` binary"), false) := by
  unfold getPipBin
  simp [truthyStr, hb, hdir, hfile]

/-- Witness for C5 on both platform layouts. -/
theorem pip_bin_dir_missing_inst :
    getPipBin ctxVenvPosix (some "/srv/venv")
      = (.error (.commandNotFound "Could not find a `pip` binary"), false) ∧
    getPipBin ctxVenvWin (some "C:\\venv")
      = (.error (.commandNotFound "Could not find a `pip` binary"), false) :=
  ⟨pip_bin_dir_missing ctxVenvPosix "/srv/venv" (by decide) (by decide) (by decide),
   pip_bin_dir_missing ctxVenvWin "C:\\venv" (by decide) (by decide) (by decide)⟩

/-! ### C6 -/

theorem startsWith_dash_e (x : String) : pyStartsWith ("-e " ++ x) "-e" = true := by
  have hdata : ("-e " ++ x).data = '-' :: 'e' :: ' ' :: x.data := by
    rw [String.data_append]
    rfl
  simp [pyStartsWith, hdata, List.isPrefixOf_cons₂, List.isPrefixOf_nil_left]

/-- C6: list maps a plain freeze line of a name, a double-equals separator
and a version to the entry name to version, and an editable line of the
editable marker, an origin, the egg separator and a name to the entry name to
origin; in particular the output lines django line and editable git line
parse to exactly the two expected entries in order. -/
theorem freeze_lines_parse (name version origin ename : String)
    (h1 : pyStartsWith (name ++ "==" ++ version) "-e" = false)
    (h2 : pySplit (name ++ "==" ++ version) "==" = [name, version])
    (h3 : pySplit ("-e " ++ (origin ++ "#egg=" ++ ename)) "-e "
        = ["", origin ++ "#egg=" ++ ename])
    (h4 : pySplit (origin ++ "#egg=" ++ ename) "#egg=" = [origin, ename])
    (h5 : (name == ename) = false) :
    parseFreezeLines ""
        [name ++ "==" ++ version, "-e " ++ (origin ++ "#egg=" ++ ename)]
      = .ok [(name, version), (ename, origin)] ∧
    list_ ctxFreeze "" (some "/usr/bin/pip") none none
      = .ok [("django", "1.5"), ("foo", "git+https://x")] := by
  refine ⟨?_, by decide⟩
  simp [parseFreezeLines, parseFreezeAux, freezeStep, h1, h2, h3, h4, h5,
    startsWith_dash_e, dictInsert, List.get?]

/-- Witness for C6 at the two lines of the claim. -/
theorem freeze_lines_parse_inst :
    parseFreezeLines "" ["django==1.5", "-e git+https://x#egg=foo"]
      = .ok [("django", "1.5"), ("foo", "git+https://x")] ∧
    list_ ctxFreeze "" (some "/usr/bin/pip") none none
      = .ok [("django", "1.5"), ("foo", "git+https://x")] :=
  freeze_lines_parse "django" "1.5" "git+https://x" "foo"
    (by decide) (by decide) (by decide) (by decide) (by decide)

/-! ### C7 -/

/-- C7 counterexample: with exit code minus one, which is non-zero, freeze
returns the split output lines and list returns a parsed package collection
instead of raising the execution error, so the claim fails for non-zero but
non-positive exit codes. -/
theorem negative_retcode_not_raised :
    ctxNeg.run_all ("/usr/bin/pip" ++ " freeze") none none = .ok ⟨-1, "x==1", "boom"⟩ ∧
    (-1 : Int) ≠ 0 ∧
    freeze ctxNeg (some "/usr/bin/pip") none none = .ok ["x==1"] ∧
    list_ ctxNeg "" (some "/usr/bin/pip") none none = .ok [("x", "1")] := by
  refine ⟨rfl, by decide, by decide, by decide⟩

/-- C7 (amended): a strictly positive exit code from the underlying freeze
invocation makes both freeze and list raise the execution error carrying the
captured stderr, never a package collection; a zero or negative exit code is
not treated as a failure. -/
theorem positive_retcode_raises (ctx : PipEnv) (b : String) (ra cw : Option String)
    (hb : b ≠ "") (hdir : ctx.isdir b = false)
    (r : RunResult) (hrun : ctx.run_all (b ++ " freeze") ra cw = .ok r)
    (hpos : 0 < r.retcode) :
    freeze ctx (some b) ra cw = .error (.executionError r.stderr) ∧
    list_ ctx "" (some b) ra cw = .error (.executionError r.stderr) := by
  unfold freeze list_
  simp [getPipBin_literal ctx b hb hdir, hrun, hpos]

/-- Witness for C7 (amended) at exit code one. -/
theorem positive_retcode_raises_inst :
    freeze ctxPos (some "/usr/bin/pip") none none
      = .error (.executionError "pip blew up") ∧
    list_ ctxPos "" (some "/usr/bin/pip") none none
      = .error (.executionError "pip blew up") :=
  positive_retcode_raises ctxPos "/usr/bin/pip" none none
    (by decide) (by decide) ⟨1, "", "pip blew up"⟩ rfl (by decide)

/-! ### C8 -/

theorem mirrorTokens_error_of_find (ms : List String) (m : String)
    (h : ms.find? (fun x => !(pyStartsWith x "http://")) = some m) :
    mirrorTokens ms = .error (.exception (pyRepr m ++ " must be a valid URL")) := by
  induction ms with
  | nil => simp at h
  | cons x rest ih =>
    by_cases hx : pyStartsWith x "http://" = true
    · rw [List.find?_cons_of_neg _ (by simp [hx])] at h
      unfold mirrorTokens
      simp [hx, ih h, Except.map]
    · have hxm : m = x := by
        rw [List.find?_cons_of_pos _ (by simp [hx])] at h
        exact (Option.some_inj.mp h).symm
      subst hxm
      unfold mirrorTokens
      simp [hx]

/-- C8: every mirror URL that does not start with the literal http prefix
fails install validation with an error naming the offending value, before any
process is spawned and with no temporary file made, even when a find_links
URL of another scheme was accepted by the URL validator, whose allowed scheme
set is VALID_PROTOS. -/
theorem mirror_requires_http (ctx : PipEnv) (b f m : String) (ms : List String)
    (hb : b ≠ "") (hdir : ctx.isdir b = false) (hf : f ≠ "")
    (hvu : ctx.valid_url f VALID_PROTOS = true)
    (hbad : ms.find? (fun x => !(pyStartsWith x "http://")) = some m) :
    (install ctx
        { bin_env := some b, find_links := some f, mirrors := some (.list ms) }).outcome
      = .error (.exception (pyRepr m ++ " must be a valid URL")) ∧
    (install ctx
        { bin_env := some b, find_links := some f, mirrors := some (.list ms) }).spawned
      = none ∧
    (install ctx
        { bin_env := some b, find_links := some f, mirrors := some (.list ms) }).temp
      = none := by
  have hmsne : ms.isEmpty = false := by
    cases ms with
    | nil => simp at hbad
    | cons a as => rfl
  have hpost : postReqTokens ctx
      { bin_env := some b, find_links := some f, mirrors := some (.list ms) }
        = .error (.exception (pyRepr m ++ " must be a valid URL")) := by
    simp [postReqTokens, truthyStr, solTruthy, hf, hvu, StrOrList.truthy, hmsne,
      normalizeCommaList, mirrorTokens_error_of_find ms m hbad, bind, Except.bind,
      pure, Except.pure, Except.map]
  have hbuild : installBuild ctx
      { bin_env := some b, find_links := some f, mirrors := some (.list ms) }
        = .vErrNoTemp (.exception (pyRepr m ++ " must be a valid URL")) := by
    unfold installBuild
    simp [getPipBin_literal ctx b hb hdir, truthyStr, hpost]
  unfold install
  rw [hbuild]
  exact ⟨rfl, rfl, rfl⟩

/-- Witness for C8: an https mirror is rejected while an ftp find_links URL
passes the scheme validator. -/
theorem mirror_requires_http_inst :
    (install baseCtx
        { bin_env := some "/usr/bin/pip", find_links := some "ftp://repo.example/links",
          mirrors := some (.list ["https://mirror.example"]) }).outcome
      = .error (.exception (pyRepr "https://mirror.example" ++ " must be a valid URL")) ∧
    (install baseCtx
        { bin_env := some "/usr/bin/pip", find_links := some "ftp://repo.example/links",
          mirrors := some (.list ["https://mirror.example"]) }).spawned = none ∧
    (install baseCtx
        { bin_env := some "/usr/bin/pip", find_links := some "ftp://repo.example/links",
          mirrors := some (.list ["https://mirror.example"]) }).temp = none :=
  mirror_requires_http baseCtx "/usr/bin/pip" "ftp://repo.example/links"
    "https://mirror.example" ["https://mirror.example"]
    (by decide) (by decide) (by decide) (by decide) (by decide)

/-! ### C10 -/

theorem dictInsert_self (d : List (String × String)) (n v : String)
    (hmem : (n, v) ∈ d) (huniq : ∀ p ∈ d, p.1 = n → p = (n, v)) :
    dictInsert d n v = d := by
  unfold dictInsert
  have hany : d.any (fun p => p.1 == n) = true :=
    List.any_eq_true.mpr ⟨(n, v), hmem, by simp⟩
  rw [if_pos hany]
  have hfix : ∀ p ∈ d, (if p.1 == n then (n, v) else p) = id p := by
    intro p hp
    by_cases hpn : p.1 = n
    · simp only [hpn, beq_self_eq_true, if_true, id_eq]
      exact (huniq p hp hpn).symm
    · simp [hpn]
  rw [List.map_congr_left hfix, List.map_id]

/-- C10: in the line loop of list with the default empty filter, a
non-editable line without the double-equals separator is neither rejected nor
skipped by an explicit branch: after an earlier successfully parsed line it
re-records the previous name and version, so the dict is unchanged, and as
the first line it raises NameError from the unbound locals; an editable line
whose remainder does not split into exactly two parts around the egg
separator raises ValueError from tuple unpacking. -/
theorem malformed_freeze_line_behavior (n v badline ebad rest : String)
    (st : Option (String × String)) (packages packages2 : List (String × String))
    (hb1 : pyStartsWith badline "-e" = false)
    (hb2 : (pySplit badline "==").length < 2)
    (hmem : (n, v) ∈ packages)
    (huniq : ∀ p ∈ packages, p.1 = n → p = (n, v))
    (he1 : pyStartsWith ebad "-e" = true)
    (he2 : (pySplit ebad "-e ").get? 1 = some rest)
    (he3 : (pySplit rest "#egg=").length ≠ 2) :
    freezeStep "" (some (n, v)) packages badline = .ok (some (n, v), packages) ∧
    freezeStep "" none packages badline = .error .nameError ∧
    freezeStep "" st packages2 ebad = .error .unpackValueError ∧
    list_ ctxBadLine "" (some "/usr/bin/pip") none none = .error .nameError := by
  have hnomatch : ∀ (s0 : Option (String × String)),
      (match pySplit badline "==" with
        | name :: version :: _ =>
            (.ok (some (name, version)) : Except PipErr (Option (String × String)))
        | _ => .ok s0) = .ok s0 := by
    intro s0
    rcases hsp : pySplit badline "==" with _ | ⟨a, _ | ⟨c, tl⟩⟩
    · rfl
    · rfl
    · exfalso
      rw [hsp] at hb2
      simp only [List.length_cons] at hb2
      omega
  refine ⟨?_, ?_, ?_, by decide⟩
  · unfold freezeStep
    simp only [hb1, Bool.false_eq_true, if_false, hnomatch]
    simp [dictInsert_self packages n v hmem huniq]
  · unfold freezeStep
    simp only [hb1, Bool.false_eq_true, if_false, hnomatch]
  · unfold freezeStep
    simp only [he1, if_true, he2]
    rcases hsp : pySplit rest "#egg=" with _ | ⟨a, _ | ⟨c, _ | ⟨e, tl⟩⟩⟩
    · rfl
    · rfl
    · rw [hsp] at he3
      simp at he3
    · rfl

/-- Witness for C10 at a malformed plain line and an editable line without an
egg fragment. -/
theorem malformed_freeze_line_behavior_inst :
    freezeStep "" (some ("django", "1.5")) [("django", "1.5")] "oops"
      = .ok (some ("django", "1.5"), [("django", "1.5")]) ∧
    freezeStep "" none [("django", "1.5")] "oops" = .error .nameError ∧
    freezeStep "" none [] "-e git+https://x" = .error .unpackValueError ∧
    list_ ctxBadLine "" (some "/usr/bin/pip") none none = .error .nameError :=
  malformed_freeze_line_behavior "django" "1.5" "oops" "-e git+https://x"
    "git+https://x" none [("django", "1.5")] []
    (by decide) (by decide) (by decide) (by decide) (by decide) (by decide)
    (by decide)

end PipMod

